import Mathlib

/-!
Verification development for the cryptofeed transport/adapter core:
a shallow embedding of src/cryptofeed/connection.py and
src/cryptofeed/exchange/hitbtc.py, with theorems about the claims of
the specification.

Prices, sizes, weights and timestamps are arbitrary-precision decimals
(Python Decimal) or floats in the source; both are embedded as rationals.
Python dicts keyed by price (SortedDict) are embedded as association
lists with the usual lookup/insert/erase operations; the ordering of the
keys plays no role in any claim.
-/

namespace Cryptofeed

/-! ## Order book sides (HitBTC._book / HitBTC._snapshot) -/

/-- One side of the order book: price-to-size map, embedded as an
association list. -/
abbrev BookSide := List (ℚ × ℚ)

/-- Lookup of a price level, mirroring Python dict access. -/
def lookupLevel : BookSide → ℚ → Option ℚ
  | [], _ => none
  | e :: rest, p => if e.1 = p then some e.2 else lookupLevel rest p

/-- Membership test, mirroring Python dict membership test on the price key. -/
def hasLevel (s : BookSide) (p : ℚ) : Bool :=
  (lookupLevel s p).isSome

/-- Insert-or-update of a price level, mirroring dict assignment. -/
def setLevel : BookSide → ℚ → ℚ → BookSide
  | [], p, v => [(p, v)]
  | e :: rest, p, v => if e.1 = p then (p, v) :: rest else e :: setLevel rest p v

/-- Removal of a price level, mirroring dict deletion of the price key. -/
def delLevel : BookSide → ℚ → BookSide
  | [], _ => []
  | e :: rest, p => if e.1 = p then delLevel rest p else e :: delLevel rest p

/-- A full two-sided book for one symbol. -/
structure Book where
  bid : BookSide
  ask : BookSide
deriving DecidableEq

/-- The bid/ask entry lists of one inbound book frame. -/
structure BookMsg where
  bid : List (ℚ × ℚ)
  ask : List (ℚ × ℚ)
deriving DecidableEq

/-- The per-side delta emitted with an incremental book update. -/
structure Delta where
  dbid : List (ℚ × ℚ)
  dask : List (ℚ × ℚ)
deriving DecidableEq

/-- One entry of an incremental frame, as processed by the inner loop of
HitBTC._book: size 0 deletes the level when present (and is otherwise a
no-op on the side), any other size upserts; in both cases the literal
entry applied is returned for the outgoing delta (with a literal 0 size
in the deletion case). -/
def applyEntry (s : BookSide) (e : ℚ × ℚ) : BookSide × (ℚ × ℚ) :=
  if e.2 = 0 then
    (if hasLevel s e.1 then delLevel s e.1 else s, (e.1, 0))
  else
    (setLevel s e.1 e.2, e)

/-- Sequential application of the entries of one side of an incremental
frame, accumulating the outgoing delta, as in HitBTC._book. -/
def applySide : BookSide → List (ℚ × ℚ) → BookSide × List (ℚ × ℚ)
  | s, [] => (s, [])
  | s, e :: rest =>
    let r := applyEntry s e
    let p := applySide r.1 rest
    (p.1, r.2 :: p.2)

/-- HitBTC._book: apply an incremental frame to both sides and return
the new book together with the emitted delta. -/
def hitbtc_book (b : Book) (m : BookMsg) : Book × Delta :=
  let rb := applySide b.bid m.bid
  let ra := applySide b.ask m.ask
  (⟨rb.1, ra.1⟩, ⟨rb.2, ra.2⟩)

/-- HitBTC._snapshot: replace both sides wholesale with fresh maps built
from the entries of the snapshot frame (every entry is inserted, the
size is not inspected). -/
def hitbtc_snapshot (m : BookMsg) : Book :=
  ⟨m.bid.foldl (fun s e => setLevel s e.1 e.2) [],
   m.ask.foldl (fun s e => setLevel s e.1 e.2) []⟩

/-- A side has no level with size 0. -/
def sideNoZeros : BookSide → Bool
  | [] => true
  | e :: rest => !(decide (e.2 = 0)) && sideNoZeros rest

/-- Neither side of the book has a level with size 0. -/
def bookNoZeros (b : Book) : Bool :=
  sideNoZeros b.bid && sideNoZeros b.ask

/-- All entries of a frame side carry a nonzero size. -/
def entriesNonzero : List (ℚ × ℚ) → Bool
  | [] => true
  | e :: rest => !(decide (e.2 = 0)) && entriesNonzero rest

theorem lookup_delLevel_self (s : BookSide) (p : ℚ) :
    lookupLevel (delLevel s p) p = none := by
  induction s with
  | nil => rfl
  | cons e rest ih =>
    by_cases h : e.1 = p
    · simpa [delLevel, h] using ih
    · simp [delLevel, lookupLevel, h, ih]

theorem lookup_delLevel_ne (s : BookSide) (p q : ℚ) (h : q ≠ p) :
    lookupLevel (delLevel s p) q = lookupLevel s q := by
  have hpq : ¬ (p = q) := fun hq => h hq.symm
  induction s with
  | nil => rfl
  | cons e rest ih =>
    by_cases he : e.1 = p
    · simp [delLevel, lookupLevel, he, hpq, ih]
    · by_cases heq : e.1 = q
      · simp [delLevel, lookupLevel, he, heq, h]
      · simp [delLevel, lookupLevel, he, heq, ih]

theorem lookup_setLevel_self (s : BookSide) (p v : ℚ) :
    lookupLevel (setLevel s p v) p = some v := by
  induction s with
  | nil => simp [setLevel, lookupLevel]
  | cons e rest ih =>
    by_cases h : e.1 = p
    · simp [setLevel, lookupLevel, h]
    · simp [setLevel, lookupLevel, h, ih]

theorem lookup_setLevel_ne (s : BookSide) (p v q : ℚ) (h : q ≠ p) :
    lookupLevel (setLevel s p v) q = lookupLevel s q := by
  have hpq : ¬ (p = q) := fun hq => h hq.symm
  induction s with
  | nil => simp [setLevel, lookupLevel, hpq]
  | cons e rest ih =>
    by_cases he : e.1 = p
    · simp [setLevel, lookupLevel, he, hpq]
    · by_cases heq : e.1 = q
      · simp [setLevel, lookupLevel, he, heq, h]
      · simp [setLevel, lookupLevel, he, heq, ih]

theorem applySide_delta (entries : List (ℚ × ℚ)) :
    ∀ s : BookSide,
      (applySide s entries).2
        = entries.map (fun e => if e.2 = 0 then (e.1, (0 : ℚ)) else e) := by
  induction entries with
  | nil => intro s; rfl
  | cons e rest ih =>
    intro s
    by_cases h : e.2 = 0
    · simp [applySide, applyEntry, h, ih]
    · simp [applySide, applyEntry, h, ih]

theorem sideNoZeros_delLevel (s : BookSide) (p : ℚ) (h : sideNoZeros s = true) :
    sideNoZeros (delLevel s p) = true := by
  induction s with
  | nil => rfl
  | cons e rest ih =>
    simp only [sideNoZeros, Bool.and_eq_true] at h
    by_cases he : e.1 = p
    · simp [delLevel, he, ih h.2]
    · simp [delLevel, sideNoZeros, he, h.1, ih h.2]

theorem sideNoZeros_setLevel (s : BookSide) (p v : ℚ) (h : sideNoZeros s = true)
    (hv : v ≠ 0) : sideNoZeros (setLevel s p v) = true := by
  induction s with
  | nil => simp [setLevel, sideNoZeros, hv]
  | cons e rest ih =>
    simp only [sideNoZeros, Bool.and_eq_true] at h
    by_cases he : e.1 = p
    · simp [setLevel, sideNoZeros, he, hv, h.2]
    · simp [setLevel, sideNoZeros, he, h.1, ih h.2]

theorem sideNoZeros_applyEntry (s : BookSide) (e : ℚ × ℚ)
    (h : sideNoZeros s = true) : sideNoZeros (applyEntry s e).1 = true := by
  by_cases hz : e.2 = 0
  · by_cases hh : hasLevel s e.1
    · simpa [applyEntry, hz, hh] using sideNoZeros_delLevel s e.1 h
    · simpa [applyEntry, hz, hh] using h
  · simpa [applyEntry, hz] using sideNoZeros_setLevel s e.1 e.2 h hz

theorem sideNoZeros_applySide (entries : List (ℚ × ℚ)) :
    ∀ s : BookSide, sideNoZeros s = true →
      sideNoZeros (applySide s entries).1 = true := by
  induction entries with
  | nil => intro s h; simpa [applySide] using h
  | cons e rest ih =>
    intro s h
    simpa [applySide] using ih (applyEntry s e).1 (sideNoZeros_applyEntry s e h)

theorem sideNoZeros_insertAll (entries : List (ℚ × ℚ)) :
    ∀ s : BookSide, sideNoZeros s = true → entriesNonzero entries = true →
      sideNoZeros (entries.foldl (fun a e => setLevel a e.1 e.2) s) = true := by
  induction entries with
  | nil => intro s h _; simpa using h
  | cons e rest ih =>
    intro s h hnz
    simp only [entriesNonzero, Bool.and_eq_true, Bool.not_eq_eq_eq_not, Bool.not_true,
      decide_eq_false_iff_not] at hnz
    simpa [List.foldl] using ih (setLevel s e.1 e.2) (sideNoZeros_setLevel s e.1 e.2 h hnz.1) hnz.2

/-- Claim C3: for every incremental book frame and every (price, size)
entry in it, a size-0 entry deletes the level when present (leaving all
other levels untouched) and is a no-op on the side when absent, in both
cases contributing the literal entry (price, 0) to the emitted delta; a
nonzero-size entry upserts the level and contributes (price, size); the
emitted delta of a side lists exactly the processed entries (zero sizes
normalised to the literal 0). In particular the snapshot
bid 100 to 1, ask 101 to 2 followed by the incremental frame ask 101 to 0
yields the book with bid level 100 at 1, empty ask side, and the emitted
delta with empty bid part and ask part [(101, 0)]. -/
theorem hitbtc_book_delta_semantics :
    (∀ (s : BookSide) (p : ℚ), hasLevel s p = true →
        (applyEntry s (p, 0)).2 = (p, 0) ∧
        lookupLevel (applyEntry s (p, 0)).1 p = none ∧
        (∀ q : ℚ, q ≠ p →
          lookupLevel (applyEntry s (p, 0)).1 q = lookupLevel s q)) ∧
    (∀ (s : BookSide) (p : ℚ), hasLevel s p = false →
        applyEntry s (p, 0) = (s, (p, 0))) ∧
    (∀ (s : BookSide) (p v : ℚ), v ≠ 0 →
        (applyEntry s (p, v)).2 = (p, v) ∧
        lookupLevel (applyEntry s (p, v)).1 p = some v ∧
        (∀ q : ℚ, q ≠ p →
          lookupLevel (applyEntry s (p, v)).1 q = lookupLevel s q)) ∧
    (∀ (s : BookSide) (entries : List (ℚ × ℚ)),
        (applySide s entries).2
          = entries.map (fun e => if e.2 = 0 then (e.1, (0 : ℚ)) else e)) ∧
    hitbtc_book (hitbtc_snapshot ⟨[(100, 1)], [(101, 2)]⟩) ⟨[], [(101, 0)]⟩
      = (⟨[(100, 1)], []⟩, ⟨[], [(101, 0)]⟩) := by
  refine ⟨?_, ?_, ?_, ?_, ?_⟩
  · intro s p hp
    refine ⟨by simp [applyEntry, hp], ?_, ?_⟩
    · simpa [applyEntry, hp] using lookup_delLevel_self s p
    · intro q hq
      simpa [applyEntry, hp] using lookup_delLevel_ne s p q hq
  · intro s p hp
    simp [applyEntry, hp]
  · intro s p v hv
    refine ⟨by simp [applyEntry, hv], ?_, ?_⟩
    · simpa [applyEntry, hv] using lookup_setLevel_self s p v
    · intro q hq
      simpa [applyEntry, hv] using lookup_setLevel_ne s p v q hq
  · intro s entries
    exact applySide_delta entries s
  · decide

/-- Witness for C3 at a concrete side and frame. -/
theorem hitbtc_book_delta_semantics_witness :
    (applyEntry [((5 : ℚ), (2 : ℚ))] (5, 0)).2 = (5, 0) ∧
    lookupLevel (applyEntry [((5 : ℚ), (2 : ℚ))] (5, 0)).1 5 = none := by
  have h := hitbtc_book_delta_semantics.1 [((5 : ℚ), (2 : ℚ))] 5 (by decide)
  exact ⟨h.1, h.2.1⟩

/-- Counterexample for claim C4: HitBTC._snapshot inserts every entry of
the snapshot frame without inspecting its size, so a snapshot frame
carrying a size-0 entry produces a book containing a level with size 0,
violating the claimed invariant. -/
theorem hitbtc_snapshot_zero_level_counterexample :
    lookupLevel (hitbtc_snapshot ⟨[(100, 0)], []⟩).bid 100 = some 0 ∧
    bookNoZeros (hitbtc_snapshot ⟨[(100, 0)], []⟩) = false := by
  decide

/-- Claim C4 amended: the incremental handler (HitBTC._book) preserves
the no-zero-size-level invariant for every possible frame content,
including frames whose entries carry size 0; the snapshot handler
replaces both maps wholesale with exactly the frame levels, so it
establishes the invariant only for snapshot frames all of whose entries
carry nonzero size (a size-0 snapshot entry is installed verbatim). -/
theorem hitbtc_book_zero_invariant_amended :
    (∀ (b : Book) (m : BookMsg), bookNoZeros b = true →
        bookNoZeros (hitbtc_book b m).1 = true) ∧
    (∀ m : BookMsg, entriesNonzero m.bid = true → entriesNonzero m.ask = true →
        bookNoZeros (hitbtc_snapshot m) = true) := by
  constructor
  · intro b m hb
    simp only [bookNoZeros, Bool.and_eq_true] at hb
    simp only [hitbtc_book, bookNoZeros, Bool.and_eq_true]
    exact ⟨sideNoZeros_applySide m.bid b.bid hb.1, sideNoZeros_applySide m.ask b.ask hb.2⟩
  · intro m hbid hask
    simp only [hitbtc_snapshot, bookNoZeros, Bool.and_eq_true]
    exact ⟨sideNoZeros_insertAll m.bid [] rfl hbid, sideNoZeros_insertAll m.ask [] rfl hask⟩

/-- Witness for the amended C4 at a concrete book and frames. -/
theorem hitbtc_book_zero_invariant_amended_witness :
    bookNoZeros (hitbtc_book ⟨[(7, 1)], []⟩ ⟨[(7, 0)], [(9, 3)]⟩).1 = true ∧
    bookNoZeros (hitbtc_snapshot ⟨[(4, 2)], [(6, 5)]⟩) = true := by
  exact ⟨hitbtc_book_zero_invariant_amended.1 ⟨[(7, 1)], []⟩ ⟨[(7, 0)], [(9, 3)]⟩ (by decide),
    hitbtc_book_zero_invariant_amended.2 ⟨[(4, 2)], [(6, 5)]⟩ (by decide) (by decide)⟩

/-! ## Throttled HTTP reads (ThrottledHTTPAsyncConn.read) -/

/-- Next wall-clock minute boundary after time t, as computed by the
source expression (int(now) // 60 + 1) * 60; faithful for the
nonnegative unix times the code runs on. -/
def nextMinute (t : ℚ) : ℚ :=
  ((⌊t⌋ / 60 + 1) * 60 : ℤ)

/-- Mutable throttle fields of ThrottledHTTPAsyncConn. -/
structure ThrottleState where
  throttle_limit : ℚ
  used_limit : ℚ
  next_reset : Option ℚ
deriving DecidableEq

/-- Outcome of one throttled read: whether the call suspended, the time
at which the underlying read is delegated, and the throttle state left
behind. -/
structure ReadResult where
  suspended : Bool
  finish : ℚ
  state : ThrottleState
deriving DecidableEq

/-- ThrottledHTTPAsyncConn.read admission control: accumulate the call
weight, initialise the window on first use, reset an expired window,
and when the accumulated weight reaches the limit suspend until the
window end and open a fresh window charged only with this call. The
suspension is embedded by reporting the wake-up time as the delegation
time; the two time.time() calls of one invocation are identified. -/
def throttledRead (s : ThrottleState) (now weight : ℚ) : ReadResult :=
  let used := s.used_limit + weight
  let nr := s.next_reset.getD (nextMinute now)
  let nr2 := if nr < now then nextMinute now else nr
  let used2 := if nr < now then weight else used
  if s.throttle_limit ≤ used2 then
    { suspended := true, finish := nr2,
      state := { throttle_limit := s.throttle_limit, used_limit := weight,
                 next_reset := some (nextMinute nr2) } }
  else
    { suspended := false, finish := now,
      state := { throttle_limit := s.throttle_limit, used_limit := used2,
                 next_reset := some nr2 } }

/-- Run a list of (time, weight) reads through the throttle, collecting
the per-read results and the final state. -/
def runReads (s : ThrottleState) : List (ℚ × ℚ) → ThrottleState × List ReadResult
  | [] => (s, [])
  | r :: rest =>
    let a := throttledRead s r.1 r.2
    let p := runReads a.state rest
    (p.1, a :: p.2)

/-- Total declared weight of a list of reads. -/
def sumW : List (ℚ × ℚ) → ℚ
  | [] => 0
  | r :: rest => r.2 + sumW rest

theorem throttledRead_in_window (limit u B now w : ℚ) (h : now ≤ B) :
    throttledRead ⟨limit, u, some B⟩ now w
      = if limit ≤ u + w then
          ⟨true, B, ⟨limit, w, some (nextMinute B)⟩⟩
        else
          ⟨false, now, ⟨limit, u + w, some B⟩⟩ := by
  have hB : ¬ (B < now) := not_lt.mpr h
  simp [throttledRead, hB]

theorem runReads_no_suspension (reads : List (ℚ × ℚ)) :
    ∀ limit u B : ℚ, (∀ r ∈ reads, r.1 ≤ B) →
      ((runReads ⟨limit, u, some B⟩ reads).2.all (fun a => !a.suspended)) = true →
      (runReads ⟨limit, u, some B⟩ reads).1 = ⟨limit, u + sumW reads, some B⟩ ∧
      (reads ≠ [] → u + sumW reads < limit) := by
  induction reads with
  | nil =>
    intro limit u B _ _
    exact ⟨by simp [runReads, sumW], fun hne => absurd rfl hne⟩
  | cons r rest ih =>
    intro limit u B hin hall
    have hr : r.1 ≤ B := hin r (List.mem_cons_self r rest)
    have hstep := throttledRead_in_window limit u B r.1 r.2 hr
    by_cases hlim : limit ≤ u + r.2
    · exfalso
      have : (throttledRead ⟨limit, u, some B⟩ r.1 r.2).suspended = true := by
        rw [hstep]; simp [hlim]
      simp only [runReads, List.all_cons, Bool.and_eq_true] at hall
      rw [this] at hall
      exact absurd hall.1 (by simp)
    · have hlt : u + r.2 < limit := not_le.mp hlim
      have hstep2 : throttledRead ⟨limit, u, some B⟩ r.1 r.2
          = ⟨false, r.1, ⟨limit, u + r.2, some B⟩⟩ := by
        rw [hstep]; simp [hlim]
      simp only [runReads, List.all_cons, Bool.and_eq_true] at hall
      rw [hstep2] at hall
      have hrest := ih limit (u + r.2) B
        (fun x hx => hin x (List.mem_cons_of_mem r hx)) hall.2
      constructor
      · simp only [runReads, hstep2]
        rw [hrest.1]
        simp [sumW, add_assoc]
      · intro _
        rcases List.eq_nil_or_concat rest with hnil | _
        · subst hnil
          simpa [sumW] using hlt
        · rcases rest with _ | ⟨x, xs⟩
          · simpa [sumW] using hlt
          · have := hrest.2 (by simp)
            calc u + sumW (r :: x :: xs) = (u + r.2) + sumW (x :: xs) := by
                  simp [sumW]; ring
              _ < limit := this

/-- Claim C2: within one wall-clock minute bucket (window ending at B),
the total weight of throttled reads accepted without a suspension never
exceeds the configured limit; a read whose accumulated used weight
reaches the limit suspends until the window end B and afterwards the
window is reset with used_limit equal to that call weight and the next
minute boundary as the new window end; concretely, with limit 10 and
weight-4 reads at seconds 61, 62 and 63 of a window ending at 120, the
third read suspends until 120 and proceeds with used_limit 4. -/
theorem throttle_window_spec :
    (∀ (limit B : ℚ) (reads : List (ℚ × ℚ)), 0 ≤ limit →
        (∀ r ∈ reads, r.1 ≤ B) →
        ((runReads ⟨limit, 0, some B⟩ reads).2.all (fun a => !a.suspended)) = true →
        sumW reads ≤ limit) ∧
    (∀ limit u B now w : ℚ, now ≤ B → limit ≤ u + w →
        throttledRead ⟨limit, u, some B⟩ now w
          = ⟨true, B, ⟨limit, w, some (nextMinute B)⟩⟩) ∧
    ((runReads ⟨10, 0, none⟩ [(61, 4), (62, 4), (63, 4)]).2.map
        (fun a => (a.suspended, a.finish))
      = [(false, 61), (false, 62), (true, 120)] ∧
     (runReads ⟨10, 0, none⟩ [(61, 4), (62, 4), (63, 4)]).1 = ⟨10, 4, some 180⟩) := by
  refine ⟨?_, ?_, ?_⟩
  · intro limit B reads h0 hin hall
    rcases reads with _ | ⟨r, rest⟩
    · simpa [sumW] using h0
    · have h := (runReads_no_suspension (r :: rest) limit 0 B hin hall).2 (by simp)
      have := le_of_lt h
      simpa using this
  · intro limit u B now w hnow hlim
    rw [throttledRead_in_window limit u B now w hnow]
    simp [hlim]
  · constructor <;> norm_num [runReads, throttledRead, nextMinute]

/-- Witness for C2 at concrete reads and a concrete suspending call. -/
theorem throttle_window_spec_witness :
    sumW [((61 : ℚ), (4 : ℚ)), (62, 4)] ≤ 10 ∧
    throttledRead ⟨10, 8, some 120⟩ 63 4
      = ⟨true, 120, ⟨10, 4, some (nextMinute 120)⟩⟩ :=
  ⟨throttle_window_spec.1 10 120 [(61, 4), (62, 4)] (by norm_num) (by decide)
      (by norm_num [runReads, throttledRead, nextMinute]),
   throttle_window_spec.2.1 10 8 120 63 4 (by norm_num) (by norm_num)⟩

/-! ## Connection lifecycle (connection.py) -/

/-- The owned transport object; it may be closed externally. -/
structure Session where
  closed : Bool
deriving DecidableEq

/-- The mutable fields of an AsyncConnection relevant to lifecycle:
the owned transport reference, the sent/received counters, and a ghost
count of underlying sessions created so far. -/
structure ConnSt where
  conn : Option Session
  sent : Nat
  received : Nat
  sessionsCreated : Nat
deriving DecidableEq

/-- The is_open property: a transport is owned and not closed. -/
def ConnSt.is_open (c : ConnSt) : Bool :=
  match c.conn with
  | some s => !s.closed
  | none => false

/-- Observable I/O steps of a connection operation. -/
inductive CEvent
  | openedSession
  | didGet (address : String)
  | didPost (address : String)
  | wsRecv
  | wsSent
deriving DecidableEq

/-- Connection-level failure. -/
inductive ConnErr
  | connectionClosed
deriving DecidableEq

/-- HTTPAsyncConn._open: warn-and-return when already open, otherwise
install a fresh client session and zero the counters. -/
def http_open (c : ConnSt) : ConnSt :=
  if c.is_open then c
  else { conn := some ⟨false⟩, sent := 0, received := 0,
         sessionsCreated := c.sessionsCreated + 1 }

/-- WSAsyncConn._open: connect only when not already open, but
unconditionally zero the sent/received counters afterwards. -/
def ws_open (c : ConnSt) : ConnSt :=
  let c1 := if c.is_open then c
            else { conn := some ⟨false⟩, sent := c.sent, received := c.received,
                   sessionsCreated := c.sessionsCreated + 1 }
  { c1 with sent := 0, received := 0 }

/-- HTTPAsyncConn.read: auto-open when closed, then perform the GET and
bump the received counter. -/
def http_read (c : ConnSt) (address : String) : List CEvent × ConnSt :=
  let p := if !c.is_open then (http_open c, [CEvent.openedSession]) else (c, [])
  (p.2 ++ [CEvent.didGet address], { p.1 with received := p.1.received + 1 })

/-- HTTPAsyncConn.write: auto-open when closed, then perform the POST
and bump the sent counter. -/
def http_write (c : ConnSt) (address : String) : List CEvent × ConnSt :=
  let p := if !c.is_open then (http_open c, [CEvent.openedSession]) else (c, [])
  (p.2 ++ [CEvent.didPost address], { p.1 with sent := p.1.sent + 1 })

/-- ThrottledHTTPAsyncConn.read: admission control followed by
delegation to the inherited HTTPAsyncConn.read. -/
def throttled_conn_read (t : ThrottleState) (c : ConnSt) (now weight : ℚ)
    (address : String) : ReadResult × (List CEvent × ConnSt) :=
  (throttledRead t now weight, http_read c address)

/-- One iteration of the HTTPPoll.read polling loop: a connection
observed closed raises ConnectionClosed instead of reopening. -/
def poll_read (c : ConnSt) (address : String) : Except ConnErr (List CEvent × ConnSt) :=
  if !c.is_open then .error .connectionClosed
  else .ok ([CEvent.didGet address], { c with received := c.received + 1 })

/-- One frame pulled through WSAsyncConn.read: fails with
ConnectionClosed when the socket is not open, otherwise receives a
frame and bumps the received counter. -/
def ws_read (c : ConnSt) : Except ConnErr (List CEvent × ConnSt) :=
  if !c.is_open then .error .connectionClosed
  else .ok ([CEvent.wsRecv], { c with received := c.received + 1 })

/-- WSAsyncConn.write: fails with ConnectionClosed when the socket is
not open, otherwise sends and bumps the sent counter. -/
def ws_write (c : ConnSt) (_data : String) : Except ConnErr (List CEvent × ConnSt) :=
  if !c.is_open then .error .connectionClosed
  else .ok ([CEvent.wsSent], { c with sent := c.sent + 1 })


theorem is_open_fresh (a b d : Nat) :
    ConnSt.is_open ⟨some ⟨false⟩, a, b, d⟩ = true := rfl

theorem is_open_counters (c : ConnSt) (a b : Nat) :
    ConnSt.is_open ⟨c.conn, a, b, c.sessionsCreated⟩ = c.is_open := rfl

theorem http_open_of_open (c : ConnSt) (h : c.is_open = true) :
    http_open c = c := by
  simp [http_open, h]

theorem http_open_of_closed (c : ConnSt) (h : c.is_open = false) :
    http_open c = ⟨some ⟨false⟩, 0, 0, c.sessionsCreated + 1⟩ := by
  simp [http_open, h]

theorem ws_open_of_open (c : ConnSt) (h : c.is_open = true) :
    ws_open c = ⟨c.conn, 0, 0, c.sessionsCreated⟩ := by
  simp [ws_open, h]

theorem ws_open_of_closed (c : ConnSt) (h : c.is_open = false) :
    ws_open c = ⟨some ⟨false⟩, 0, 0, c.sessionsCreated + 1⟩ := by
  simp [ws_open, h]

theorem http_read_of_closed (c : ConnSt) (a : String) (h : c.is_open = false) :
    http_read c a = ([CEvent.openedSession, CEvent.didGet a],
      ⟨some ⟨false⟩, 0, 1, c.sessionsCreated + 1⟩) := by
  simp [http_read, h, http_open_of_closed c h]

theorem http_write_of_closed (c : ConnSt) (a : String) (h : c.is_open = false) :
    http_write c a = ([CEvent.openedSession, CEvent.didPost a],
      ⟨some ⟨false⟩, 1, 0, c.sessionsCreated + 1⟩) := by
  simp [http_write, h, http_open_of_closed c h]

/-- Counterexample for claim C7: the claim asserts that read on every
Closed HTTP-family channel, polling included, transparently opens the
connection first and then proceeds; but HTTPPoll.read on a closed
connection raises ConnectionClosed and performs no open and no I/O. -/
theorem poll_read_closed_counterexample :
    poll_read ⟨none, 0, 0, 0⟩ "addr" = .error .connectionClosed := rfl

/-- Claim C7 amended: read or write on a Closed WebSocket connection
raises ConnectionClosed without performing any I/O; read and write on a
Closed async HTTP connection (and the throttled subclass, which
delegates to the same read) first trigger open and then proceed; but
HTTPPoll.read on a connection observed Closed raises ConnectionClosed
instead of reopening (only its inherited write auto-opens). -/
theorem closed_channel_semantics_amended :
    (∀ c : ConnSt, c.is_open = false →
        ws_read c = .error .connectionClosed ∧
        (∀ d : String, ws_write c d = .error .connectionClosed)) ∧
    (∀ (c : ConnSt) (a : String), c.is_open = false →
        (http_read c a).1 = [CEvent.openedSession, CEvent.didGet a] ∧
        (http_read c a).2.is_open = true ∧
        (http_write c a).1 = [CEvent.openedSession, CEvent.didPost a] ∧
        (http_write c a).2.is_open = true) ∧
    (∀ (t : ThrottleState) (c : ConnSt) (now w : ℚ) (a : String), c.is_open = false →
        (throttled_conn_read t c now w a).2.1 = [CEvent.openedSession, CEvent.didGet a]) ∧
    (∀ (c : ConnSt) (a : String), c.is_open = false →
        poll_read c a = .error .connectionClosed) := by
  refine ⟨?_, ?_, ?_, ?_⟩
  · intro c h
    exact ⟨by simp [ws_read, h], fun d => by simp [ws_write, h]⟩
  · intro c a h
    rw [http_read_of_closed c a h, http_write_of_closed c a h]
    exact ⟨rfl, rfl, rfl, rfl⟩
  · intro t c now w a h
    simp [throttled_conn_read, http_read_of_closed c a h]
  · intro c a h
    simp [poll_read, h]

/-- Witness for the amended C7 at a concrete closed connection. -/
theorem closed_channel_semantics_amended_witness :
    ws_read ⟨none, 2, 3, 1⟩ = .error .connectionClosed ∧
    (http_read ⟨none, 2, 3, 1⟩ "a").1 = [CEvent.openedSession, CEvent.didGet "a"] ∧
    poll_read ⟨none, 2, 3, 1⟩ "a" = .error .connectionClosed :=
  ⟨(closed_channel_semantics_amended.1 ⟨none, 2, 3, 1⟩ rfl).1,
   (closed_channel_semantics_amended.2.1 ⟨none, 2, 3, 1⟩ "a" rfl).1,
   closed_channel_semantics_amended.2.2.2 ⟨none, 2, 3, 1⟩ "a" rfl⟩

/-- Counterexample for claim C9: the claim asserts that open on an
already-Open channel leaves the channel state, counters included,
unchanged; but WSAsyncConn._open zeroes the sent/received counters even
when the socket is already open, so a second open changes the state. -/
theorem ws_open_resets_counters_counterexample :
    ws_open ⟨some ⟨false⟩, 5, 3, 1⟩ ≠ ⟨some ⟨false⟩, 5, 3, 1⟩ := by
  decide

/-- Claim C9 amended: open on an already-Open channel creates no second
underlying session and keeps the transport reference; for the HTTP
connection the state is entirely unchanged, while the WebSocket open
additionally zeroes the sent/received counters even when already open.
Open twice in a row is absorbed and, starting from Closed, creates
exactly one live underlying session in total. -/
theorem open_idempotent_amended :
    (∀ c : ConnSt, c.is_open = true → http_open c = c) ∧
    (∀ c : ConnSt, c.is_open = true →
        ws_open c = ⟨c.conn, 0, 0, c.sessionsCreated⟩) ∧
    (∀ c : ConnSt, http_open (http_open c) = http_open c) ∧
    (∀ c : ConnSt, ws_open (ws_open c) = ws_open c) ∧
    (∀ c : ConnSt, c.is_open = false →
        (http_open (http_open c)).sessionsCreated = c.sessionsCreated + 1 ∧
        (http_open (http_open c)).is_open = true ∧
        (ws_open (ws_open c)).sessionsCreated = c.sessionsCreated + 1 ∧
        (ws_open (ws_open c)).is_open = true) := by
  refine ⟨http_open_of_open, ws_open_of_open, ?_, ?_, ?_⟩
  · intro c
    by_cases h : c.is_open
    · rw [http_open_of_open c h, http_open_of_open c h]
    · rw [http_open_of_closed c (Bool.of_not_eq_true h)]
      rw [http_open_of_open _ (is_open_fresh 0 0 (c.sessionsCreated + 1))]
  · intro c
    by_cases h : c.is_open
    · rw [ws_open_of_open c h]
      rw [ws_open_of_open _ ((is_open_counters c 0 0).trans h)]
    · rw [ws_open_of_closed c (Bool.of_not_eq_true h)]
      rw [ws_open_of_open _ (is_open_fresh 0 0 (c.sessionsCreated + 1))]
  · intro c h
    rw [http_open_of_closed c h, ws_open_of_closed c h]
    rw [http_open_of_open _ (is_open_fresh 0 0 (c.sessionsCreated + 1))]
    rw [ws_open_of_open _ (is_open_fresh 0 0 (c.sessionsCreated + 1))]
    exact ⟨rfl, rfl, rfl, rfl⟩

/-- Witness for the amended C9 at a concrete open connection. -/
theorem open_idempotent_amended_witness :
    http_open ⟨some ⟨false⟩, 5, 3, 1⟩ = ⟨some ⟨false⟩, 5, 3, 1⟩ ∧
    ws_open ⟨some ⟨false⟩, 5, 3, 1⟩ = ⟨some ⟨false⟩, 0, 0, 1⟩ :=
  ⟨open_idempotent_amended.1 ⟨some ⟨false⟩, 5, 3, 1⟩ rfl,
   open_idempotent_amended.2.1 ⟨some ⟨false⟩, 5, 3, 1⟩ rfl⟩

/-! ## Raw data capture ordering (HTTPSync.process_response and friends) -/

/-- Directional context handed to the raw data callback. -/
inductive SinkCtx
  | endpoint (address : String) (headers : Option (List (String × String)))
  | sendTo (address : String)
deriving DecidableEq

/-- Observable events of one HTTP request processing, in order. -/
inductive HEvent
  | sinkCall (payload : String) (ts : ℚ) (connId : String) (ctx : SinkCtx)
  | statusError (status : Nat)
  | deliver (payload : String)
deriving DecidableEq

/-- response.raise_for_status: raises for a 4xx/5xx status (the non-2xx
statuses the HTTP client surfaces after following redirects), otherwise
the payload is delivered to the caller. -/
def raiseForStatus (status : Nat) (payload : String) : List HEvent :=
  if 400 ≤ status then [HEvent.statusError status] else [HEvent.deliver payload]

/-- HTTPSync.process_response: hand the body to the raw callback when
one is configured, then raise for status. -/
def process_response (hasSink : Bool) (status : Nat) (body address : String)
    (ts : ℚ) (uuid : String) : List HEvent :=
  (if hasSink then [HEvent.sinkCall body ts uuid (SinkCtx.endpoint address none)]
   else []) ++ raiseForStatus status body

/-- HTTPAsyncConn.read: receive the body, hand it to the raw callback
(with the response headers when return_headers is requested), then
raise for status. -/
def http_async_read_events (hasSink : Bool) (status : Nat) (body address : String)
    (ts : ℚ) (connId : String) (returnHeaders : Bool)
    (headers : List (String × String)) : List HEvent :=
  (if hasSink then
     [HEvent.sinkCall body ts connId
        (SinkCtx.endpoint address (if returnHeaders then some headers else none))]
   else []) ++ raiseForStatus status body

/-- HTTPAsyncConn.write: read the response body, hand it to the raw
callback with the send context, then raise for status. -/
def http_async_write_events (hasSink : Bool) (status : Nat) (body address : String)
    (ts : ℚ) (connId : String) : List HEvent :=
  (if hasSink then [HEvent.sinkCall body ts connId (SinkCtx.sendTo address)]
   else []) ++ raiseForStatus status body

/-- One HTTPPoll.read iteration on an open connection: receive the
body, hand it to the raw callback, then raise for status and yield. -/
def http_poll_events (hasSink : Bool) (status : Nat) (body address : String)
    (ts : ℚ) (connId : String) : List HEvent :=
  (if hasSink then [HEvent.sinkCall body ts connId (SinkCtx.endpoint address none)]
   else []) ++ raiseForStatus status body

/-- Claim C6: on every HTTP-family read or write with a configured raw
data sink, the sink receives the raw payload together with a timestamp,
the connection id and directional context as the first observable
event, strictly before any transport-status error; in particular, on an
error status (4xx/5xx) the event trace is exactly the sink invocation
followed by the status error, for each of the four HTTP code paths. -/
theorem raw_capture_before_status_error :
    (∀ (status : Nat) (body address : String) (ts : ℚ) (uuid : String),
        process_response true status body address ts uuid
          = HEvent.sinkCall body ts uuid (SinkCtx.endpoint address none)
              :: raiseForStatus status body) ∧
    (∀ (status : Nat) (body address : String) (ts : ℚ) (uuid : String),
        400 ≤ status →
        process_response true status body address ts uuid
          = [HEvent.sinkCall body ts uuid (SinkCtx.endpoint address none),
             HEvent.statusError status]) ∧
    (∀ (status : Nat) (body address : String) (ts : ℚ) (connId : String)
        (rh : Bool) (hs : List (String × String)), 400 ≤ status →
        http_async_read_events true status body address ts connId rh hs
          = [HEvent.sinkCall body ts connId
               (SinkCtx.endpoint address (if rh then some hs else none)),
             HEvent.statusError status]) ∧
    (∀ (status : Nat) (body address : String) (ts : ℚ) (connId : String),
        400 ≤ status →
        http_async_write_events true status body address ts connId
          = [HEvent.sinkCall body ts connId (SinkCtx.sendTo address),
             HEvent.statusError status]) ∧
    (∀ (status : Nat) (body address : String) (ts : ℚ) (connId : String),
        400 ≤ status →
        http_poll_events true status body address ts connId
          = [HEvent.sinkCall body ts connId (SinkCtx.endpoint address none),
             HEvent.statusError status]) := by
  refine ⟨?_, ?_, ?_, ?_, ?_⟩
  · intro status body address ts uuid
    simp [process_response]
  · intro status body address ts uuid h
    simp [process_response, raiseForStatus, h]
  · intro status body address ts connId rh hs h
    simp [http_async_read_events, raiseForStatus, h]
  · intro status body address ts connId h
    simp [http_async_write_events, raiseForStatus, h]
  · intro status body address ts connId h
    simp [http_poll_events, raiseForStatus, h]

/-- Witness for C6 at a concrete failing response. -/
theorem raw_capture_before_status_error_witness :
    process_response true 404 "body" "addr" 7 "cid"
      = [HEvent.sinkCall "body" 7 "cid" (SinkCtx.endpoint "addr" none),
         HEvent.statusError 404] :=
  raw_capture_before_status_error.2.1 404 "body" "addr" 7 "cid" (by norm_num)

/-! ## Connection ids (AsyncConnection.conn_count) -/

/-- Transport kinds of the AsyncConnection subclasses. -/
inductive TKind
  | http
  | ws
  | poll
deriving DecidableEq

/-- The id string built by each subclass constructor from the caller
base, the kind tag and the value of AsyncConnection.conn_count at
construction time (the class attribute is read before the base
constructor increments it; HTTPPoll wraps the already-tagged string in
HTTPAsyncConn, tagging twice with the same count). -/
def mkId (k : TKind) (base : String) (count : Nat) : String :=
  match k with
  | TKind.http => base ++ ".http." ++ toString count
  | TKind.ws => base ++ ".ws." ++ toString count
  | TKind.poll => base ++ ".http." ++ toString count ++ ".http." ++ toString count

/-- Construct one connection: produce its id and bump the single class
counter shared by every AsyncConnection subclass. -/
def construct (count : Nat) (k : TKind) (base : String) : String × Nat :=
  (mkId k base count, count + 1)

/-- Construct a sequence of connections, threading the shared class
counter, and collect the ids. -/
def constructAll (count : Nat) : List (TKind × String) → List String × Nat
  | [] => ([], count)
  | kb :: rest =>
    let r := construct count kb.1 kb.2
    let p := constructAll r.2 rest
    (r.1 :: p.1, p.2)

/-- Modelled from the spec: the claimed id scheme with one monotonically
increasing counter per transport kind, each construction reading and
bumping only its own kind counter. -/
structure KindCounters where
  http : Nat
  ws : Nat
  poll : Nat
deriving DecidableEq

/-- Modelled from the spec: read the counter of one kind. -/
def KindCounters.get (cs : KindCounters) : TKind → Nat
  | TKind.http => cs.http
  | TKind.ws => cs.ws
  | TKind.poll => cs.poll

/-- Modelled from the spec: bump the counter of one kind. -/
def KindCounters.bump (cs : KindCounters) : TKind → KindCounters
  | TKind.http => { cs with http := cs.http + 1 }
  | TKind.ws => { cs with ws := cs.ws + 1 }
  | TKind.poll => { cs with poll := cs.poll + 1 }

/-- Modelled from the spec: id written as base, kind tag and the
per-kind counter value. -/
def mkIdPerKind (k : TKind) (base : String) (n : Nat) : String :=
  match k with
  | TKind.http => base ++ ".http." ++ toString n
  | TKind.ws => base ++ ".ws." ++ toString n
  | TKind.poll => base ++ ".http." ++ toString n

/-- Modelled from the spec: construct a sequence of connections under
the per-kind counter scheme the claim describes. -/
def constructAllPerKind (cs : KindCounters) : List (TKind × String) → List String × KindCounters
  | [] => ([], cs)
  | kb :: rest =>
    let p := constructAllPerKind (cs.bump kb.1) rest
    (mkIdPerKind kb.1 kb.2 (cs.get kb.1) :: p.1, p.2)

/-- Counterexample for claim C8: the source counter is one class
attribute shared by every transport kind, so constructing http, then
ws, then http yields http suffixes 0 and 2 — not the consecutive
per-kind suffixes 0 and 1 the claim asserts; the code ids differ from
the per-kind scheme modelled from the claim. -/
theorem conn_id_per_kind_counterexample :
    (constructAll 0 [(TKind.http, "b"), (TKind.ws, "b"), (TKind.http, "b")]).1
      = ["b.http.0", "b.ws.1", "b.http.2"] ∧
    (constructAllPerKind ⟨0, 0, 0⟩
        [(TKind.http, "b"), (TKind.ws, "b"), (TKind.http, "b")]).1
      = ["b.http.0", "b.ws.0", "b.http.1"] ∧
    (constructAll 0 [(TKind.http, "b"), (TKind.ws, "b"), (TKind.http, "b")]).1
      ≠ (constructAllPerKind ⟨0, 0, 0⟩
          [(TKind.http, "b"), (TKind.ws, "b"), (TKind.http, "b")]).1 := by
  refine ⟨rfl, rfl, ?_⟩
  decide

theorem constructAll_final (seq : List (TKind × String)) :
    ∀ count : Nat, (constructAll count seq).2 = count + seq.length := by
  induction seq with
  | nil => intro count; simp [constructAll]
  | cons kb rest ih =>
    intro count
    simp only [constructAll, construct, List.length_cons]
    rw [ih (count + 1)]
    omega

theorem constructAll_length (seq : List (TKind × String)) :
    ∀ count : Nat, (constructAll count seq).1.length = seq.length := by
  induction seq with
  | nil => intro count; simp [constructAll]
  | cons kb rest ih =>
    intro count
    simp only [constructAll, List.length_cons]
    rw [ih]

theorem constructAll_get (seq : List (TKind × String)) :
    ∀ (count i : Nat) (h1 : i < (constructAll count seq).1.length)
      (h2 : i < seq.length),
      (constructAll count seq).1.get ⟨i, h1⟩
        = mkId (seq.get ⟨i, h2⟩).1 (seq.get ⟨i, h2⟩).2 (count + i) := by
  induction seq with
  | nil =>
    intro count i h1 h2
    exact absurd h2 (Nat.not_lt_zero i)
  | cons kb rest ih =>
    intro count i h1 h2
    cases i with
    | zero => rfl
    | succ n =>
      have h1r : n < (constructAll (count + 1) rest).1.length := by
        have := h1
        simp only [constructAll, construct, List.length_cons] at this
        omega
      have h2r : n < rest.length := Nat.lt_of_succ_lt_succ h2
      have := ih (count + 1) n h1r h2r
      simp only [constructAll, construct, List.get_cons_succ]
      rw [this]
      congr 1
      omega

/-- Claim C8 amended: every connection id embeds the value of one
counter shared by all transport kinds (the AsyncConnection class
attribute), read before the increment, so the i-th construction of any
kind embeds count+i and each construction of any kind bumps the counter
by exactly one; suffixes of one kind are therefore strictly increasing
but skip a value for every interleaved construction of another kind,
and HTTPPoll ids carry the http tag and the count twice. -/
theorem conn_id_shared_counter (count : Nat) (seq : List (TKind × String)) :
    (constructAll count seq).2 = count + seq.length ∧
    (constructAll count seq).1.length = seq.length ∧
    (∀ (i : Nat) (h1 : i < (constructAll count seq).1.length) (h2 : i < seq.length),
        (constructAll count seq).1.get ⟨i, h1⟩
          = mkId (seq.get ⟨i, h2⟩).1 (seq.get ⟨i, h2⟩).2 (count + i)) :=
  ⟨constructAll_final seq count, constructAll_length seq count,
   fun i h1 h2 => constructAll_get seq count i h1 h2⟩

/-- Witness for the amended C8 at a concrete construction sequence. -/
theorem conn_id_shared_counter_witness :
    (constructAll 0 [(TKind.http, "b"), (TKind.ws, "b")]).2 = 0 + 2 ∧
    (constructAll 0 [(TKind.http, "b"), (TKind.ws, "b")]).1.get ⟨1, by decide⟩
      = mkId TKind.ws "b" (0 + 1) :=
  ⟨(conn_id_shared_counter 0 [(TKind.http, "b"), (TKind.ws, "b")]).1,
   (conn_id_shared_counter 0 [(TKind.http, "b"), (TKind.ws, "b")]).2.2 1
     (by decide) (by decide)⟩

/-! ## HitBTC message handling (hitbtc.py)

The decoded JSON frame is embedded as a record of the optional fields
message_handler and the per-kind handlers inspect. Symbol translation
(exchange_symbol_to_std_symbol) is an external table and is embedded as
the identity on symbol strings; timestamp_normalize is external and is
passed in as a function argument. -/

/-- Trade side markers BUY/SELL. -/
inductive TradeSide
  | buy
  | sell
deriving DecidableEq

/-- One entry of a trades batch (msg data list). -/
structure TradeEntry where
  price : ℚ
  quantity : ℚ
  side : String
  tid : Nat
  tstamp : String
deriving DecidableEq

/-- The fields of a params (or channel data) object that the handlers
read: the symbol, an optional sequence number, book entry lists, ticker
best bid/ask (absent values allowed, as with maybe_decimal), the frame
timestamp string, and the trades batch. -/
structure WireParams where
  symbol : String
  sequence : Option Nat := none
  bid : List (ℚ × ℚ) := []
  ask : List (ℚ × ℚ) := []
  tbid : Option ℚ := none
  task : Option ℚ := none
  tstamp : String := ""
  data : List TradeEntry := []
deriving DecidableEq

/-- A decoded inbound frame: optional method/channel discriminators,
optional params/data objects, whether an error key is present, and the
optional result value (present and truthy, present and falsy, or
absent). -/
structure WireMsg where
  method : Option String := none
  channel : Option String := none
  params : Option WireParams := none
  data : Option WireParams := none
  hasError : Bool := false
  result : Option Bool := none
deriving DecidableEq

/-- Adapter state owned by the HitBTC feed: the per-symbol sequence
map and the per-symbol book replica. -/
structure FeedState where
  seq_no : List (String × Nat)
  l2_book : List (String × Book)
deriving DecidableEq

/-- Association-list lookup (Python dict read). -/
def alookup {β : Type} : List (String × β) → String → Option β
  | [], _ => none
  | e :: rest, k => if e.1 = k then some e.2 else alookup rest k

/-- Association-list update (Python dict assignment). -/
def aset {β : Type} : List (String × β) → String → β → List (String × β)
  | [], k, v => [(k, v)]
  | e :: rest, k, v => if e.1 = k then (k, v) :: rest else e :: aset rest k v

/-- Normalized trade event fields as passed to the TRADES callback. -/
structure TradeOut where
  symbol : String
  side : TradeSide
  amount : ℚ
  price : ℚ
  order_id : Nat
  timestamp : ℚ
  receipt_timestamp : ℚ
deriving DecidableEq

/-- Normalized events emitted through the callback interfaces. -/
inductive Event
  | ticker (symbol : String) (bid ask : Option ℚ) (ts receipt : ℚ)
  | l2book (symbol : String) (isSnapshot : Bool) (delta : Option Delta)
      (book : Book) (ts receipt : ℚ)
  | trade (t : TradeOut)
deriving DecidableEq

/-- Errors message_handler can raise: the sequence gap exception and a
missing-key access on the decoded frame. -/
inductive HErr
  | missingSequenceNumber
  | keyError
deriving DecidableEq

/-- HitBTC._trades: one Trade per batch entry; the loop variable named
timestamp is reassigned to the normalized exchange timestamp of the
current entry before each callback, so both the timestamp and the
receipt_timestamp fields carry the entry timestamp and the frame
receipt time (the unused parameter) is never reported. -/
def hitbtc_trades (tsNorm : String → ℚ) (symbol : String)
    (entries : List TradeEntry) (_timestamp : ℚ) : List TradeOut :=
  entries.map fun u =>
    { symbol := symbol
      side := if u.side = "buy" then TradeSide.buy else TradeSide.sell
      amount := u.quantity
      price := u.price
      order_id := u.tid
      timestamp := tsNorm u.tstamp
      receipt_timestamp := tsNorm u.tstamp }

/-- HitBTC._ticker: emit a Ticker with the normalized frame timestamp
and the receipt timestamp. -/
def hitbtc_ticker (tsNorm : String → ℚ) (p : WireParams) (timestamp : ℚ) : Event :=
  Event.ticker p.symbol p.tbid p.task (tsNorm p.tstamp) timestamp

/-- The sequence-number block at the top of HitBTC.message_handler: for
a frame whose params carry a sequence number, compare against the
stored number for the symbol (raising MissingSequenceNumber unless the
new one is exactly the successor) and store the new number. -/
def seqCheck (st : FeedState) (msg : WireMsg) : Except HErr FeedState :=
  match msg.params with
  | some p =>
    match p.sequence with
    | some s =>
      match alookup st.seq_no p.symbol with
      | some last =>
        if last + 1 ≠ s then .error .missingSequenceNumber
        else .ok { st with seq_no := aset st.seq_no p.symbol s }
      | none => .ok { st with seq_no := aset st.seq_no p.symbol s }
    | none => .ok st
  | none => .ok st

/-- The discriminator dispatch of HitBTC.message_handler: route by the
method name, else by the channel name, else log server errors or empty
results (accessing the result key, which is a KeyError when absent);
unrecognized names are logged and dropped. -/
def dispatch (tsNorm : String → ℚ) (st : FeedState) (msg : WireMsg)
    (timestamp : ℚ) : Except HErr (FeedState × List Event) :=
  match msg.method with
  | some m =>
    if m = "ticker" then
      match msg.params with
      | some p => .ok (st, [hitbtc_ticker tsNorm p timestamp])
      | none => .error .keyError
    else if m = "snapshotOrderbook" then
      match msg.params with
      | some p =>
        let b := hitbtc_snapshot ⟨p.bid, p.ask⟩
        .ok ({ st with l2_book := aset st.l2_book p.symbol b },
             [Event.l2book p.symbol true none b timestamp timestamp])
      | none => .error .keyError
    else if m = "updateOrderbook" then
      match msg.params with
      | some p =>
        match alookup st.l2_book p.symbol with
        | some b =>
          let r := hitbtc_book b ⟨p.bid, p.ask⟩
          .ok ({ st with l2_book := aset st.l2_book p.symbol r.1 },
               [Event.l2book p.symbol false (some r.2) r.1 timestamp timestamp])
        | none => .error .keyError
      | none => .error .keyError
    else if m = "updateTrades" ∨ m = "snapshotTrades" then
      match msg.params with
      | some p =>
        .ok (st, (hitbtc_trades tsNorm p.symbol p.data timestamp).map Event.trade)
      | none => .error .keyError
    else .ok (st, [])
  | none =>
    match msg.channel with
    | some c =>
      if c = "ticker" then
        match msg.data with
        | some p => .ok (st, [hitbtc_ticker tsNorm p timestamp])
        | none => .error .keyError
      else .ok (st, [])
    | none =>
      if msg.hasError then .ok (st, [])
      else
        match msg.result with
        | some _ => .ok (st, [])
        | none => .error .keyError

/-- HitBTC.message_handler: the sequence check runs first on every
frame, then the frame is dispatched; a raise in the sequence check
prevents the dispatch, so no state change and no emitted event comes
from the offending frame. -/
def message_handler (tsNorm : String → ℚ) (st : FeedState) (msg : WireMsg)
    (timestamp : ℚ) : Except HErr (FeedState × List Event) :=
  match seqCheck st msg with
  | .error e => .error e
  | .ok st1 => dispatch tsNorm st1 msg timestamp

/-- Claim C1: when a frame carrying a sequence number arrives for a
symbol whose last confirmed sequence number is stored, and the new
number is not the successor of the stored one, message_handler raises
MissingSequenceNumber; the raise happens in the sequence block before
any dispatch, so the returned error carries no state change and no
emitted event: the book replica, the sequence map and the event stream
of the offending frame are all untouched. -/
theorem hitbtc_sequence_gap (tsNorm : String → ℚ) (st : FeedState) (msg : WireMsg)
    (ts : ℚ) (p : WireParams) (s last : Nat)
    (hp : msg.params = some p) (hs : p.sequence = some s)
    (hl : alookup st.seq_no p.symbol = some last) (hne : s ≠ last + 1) :
    message_handler tsNorm st msg ts = .error .missingSequenceNumber := by
  have hne2 : last + 1 ≠ s := fun h => hne h.symm
  simp [message_handler, seqCheck, hp, hs, hl, hne2]

/-- Witness for C1 at a concrete state and frame. -/
theorem hitbtc_sequence_gap_witness :
    message_handler (fun _ => (0 : ℚ)) ⟨[("X", 5)], []⟩
        { params := some { symbol := "X", sequence := some 7 } } 0
      = .error .missingSequenceNumber :=
  hitbtc_sequence_gap (fun _ => 0) ⟨[("X", 5)], []⟩
    { params := some { symbol := "X", sequence := some 7 } } 0
    { symbol := "X", sequence := some 7 } 7 5 rfl rfl rfl (by decide)

/-- The frame carries a params object with a sequence number. -/
def carriesSeq (msg : WireMsg) : Bool :=
  match msg.params with
  | some p => p.sequence.isSome
  | none => false

/-- The frame matches none of the known discriminators, or signals a
server error or carries a result value: the cases the handler logs and
drops. -/
def unrecognizedDrop (msg : WireMsg) : Bool :=
  match msg.method with
  | some m => !(m == "ticker" || m == "snapshotOrderbook" || m == "updateOrderbook"
                || m == "updateTrades" || m == "snapshotTrades")
  | none =>
    match msg.channel with
    | some c => !(c == "ticker")
    | none => msg.hasError || msg.result.isSome

/-- Counterexample for claim C5: a frame with the unknown method name
foo is logged and dropped without raising, but because the sequence
block runs before the discriminator dispatch, the frame's
params.sequence still mutates the sequence map: from the empty state
the handler returns with seq_no holding the pair (X, 1), not the
unchanged state the claim asserts. -/
theorem hitbtc_unknown_method_mutates_seq :
    message_handler (fun _ => (0 : ℚ)) ⟨[], []⟩
        { method := some "foo", params := some { symbol := "X", sequence := some 1 } } 0
      = .ok (⟨[("X", 1)], []⟩, []) ∧
    FeedState.mk [("X", 1)] [] ≠ FeedState.mk [] [] :=
  ⟨rfl, by decide⟩

/-- Claim C5 amended: a frame matching none of the known method/channel
names, or signaling a server error or carrying a result value, is
dropped without raising and without touching the sequence map or the
book replica, provided the frame does not itself carry a
params.sequence field; a sequence-bearing frame passes through the
sequence block first (which updates the map and may raise), and a frame
with no method, no channel, no error key and no result key raises a
key lookup error on the result access. -/
theorem hitbtc_unrecognized_dropped (tsNorm : String → ℚ) (st : FeedState)
    (msg : WireMsg) (ts : ℚ) (hseq : carriesSeq msg = false)
    (hun : unrecognizedDrop msg = true) :
    message_handler tsNorm st msg ts = .ok (st, []) := by
  have hsc : seqCheck st msg = .ok st := by
    unfold seqCheck
    cases hp : msg.params with
    | none => rfl
    | some p =>
      cases hs : p.sequence with
      | none => simp [hs]
      | some s =>
        exfalso
        simp [carriesSeq, hp, hs] at hseq
  unfold message_handler
  rw [hsc]
  unfold dispatch
  cases hm : msg.method with
  | some m =>
    have h1 : ¬ m = "ticker" := fun h => by
      subst h; simp [unrecognizedDrop, hm] at hun
    have h2 : ¬ m = "snapshotOrderbook" := fun h => by
      subst h; simp [unrecognizedDrop, hm] at hun
    have h3 : ¬ m = "updateOrderbook" := fun h => by
      subst h; simp [unrecognizedDrop, hm] at hun
    have h4 : ¬ m = "updateTrades" := fun h => by
      subst h; simp [unrecognizedDrop, hm] at hun
    have h5 : ¬ m = "snapshotTrades" := fun h => by
      subst h; simp [unrecognizedDrop, hm] at hun
    simp [h1, h2, h3, h4, h5]
  | none =>
    cases hc : msg.channel with
    | some c =>
      have h1 : ¬ c = "ticker" := fun h => by
        subst h; simp [unrecognizedDrop, hm, hc] at hun
      simp [h1]
    | none =>
      simp only [unrecognizedDrop, hm, hc] at hun
      cases he : msg.hasError with
      | true => simp [he]
      | false =>
        rw [he] at hun
        simp only [Bool.false_or] at hun
        cases hr : msg.result with
        | some b => simp [he, hr]
        | none => rw [hr] at hun; simp at hun

/-- Witness for the amended C5 at a concrete unknown-channel frame. -/
theorem hitbtc_unrecognized_dropped_witness :
    message_handler (fun _ => (0 : ℚ)) ⟨[("Y", 2)], []⟩
        { channel := some "candles" } 0
      = .ok (⟨[("Y", 2)], []⟩, []) :=
  hitbtc_unrecognized_dropped (fun _ => 0) ⟨[("Y", 2)], []⟩
    { channel := some "candles" } 0 rfl rfl

/-- Claim C10: every Trade emitted by the trades handler carries the
normalized exchange timestamp of its own batch entry in both the
timestamp and the receipt_timestamp fields; the frame-receipt timestamp
passed into the handler is shadowed by the loop reassignment and never
appears in any emitted event, so the handler output does not depend on
it. -/
theorem hitbtc_trades_receipt (tsNorm : String → ℚ) (symbol : String)
    (entries : List TradeEntry) (t1 t2 : ℚ) :
    ((hitbtc_trades tsNorm symbol entries t1).map (fun e => e.receipt_timestamp)
        = entries.map (fun u => tsNorm u.tstamp)) ∧
    ((hitbtc_trades tsNorm symbol entries t1).map (fun e => e.timestamp)
        = entries.map (fun u => tsNorm u.tstamp)) ∧
    hitbtc_trades tsNorm symbol entries t1 = hitbtc_trades tsNorm symbol entries t2 := by
  refine ⟨?_, ?_, rfl⟩ <;> simp [hitbtc_trades]
